import Mathlib

/-!
Verification of the tripwire load-simulation engine (Go) against its
natural-language specification, via a shallow embedding in Lean.

Durations (Go `time.Duration`) are modelled as `Int` nanoseconds; Go `uint`
weights as `Nat`; Go `int` draws as `Int`.  Go's integer division truncates
toward zero, which is `Int.tdiv`.
-/

namespace Tripwire

/-- Go integer division truncates toward zero (`Int.tdiv`). -/
def goQuot (a b : Int) : Int := Int.tdiv a b

/-- A single weighted service time, from `client.WeightedServiceTime`
(`service_time: duration`, `weight: uint`, defaulting to 1 at parse time). -/
structure WeightedServiceTime where
  serviceTime : Int
  weight : Nat
deriving DecidableEq, Repr

/-- `client.WeightedServiceTimes`: an ordered list of weighted service times. -/
abbrev WeightedServiceTimes := List WeightedServiceTime

/-- `WeightedServiceTimes.Sum`: the sum of all weights. -/
def sumWeights (w : WeightedServiceTimes) : Nat :=
  (w.map WeightedServiceTime.weight).sum

/-- `WeightedServiceTimes.Weighted`: walks the list subtracting each weight
from the draw; returns the service time of the first entry that makes the
running draw negative, and 0 when the list is exhausted.  Mirrors

  for _, wl := range w { weight -= int(wl.Weight); if weight < 0 { return wl.ServiceTime } }
  return 0
-/
def Weighted : WeightedServiceTimes → Int → Int
  | [], _ => 0
  | wl :: rest, weight =>
      if weight - (wl.weight : Int) < 0 then wl.serviceTime
      else Weighted rest (weight - (wl.weight : Int))

/-- The index of the entry `Weighted` returns: same traversal as `Weighted`,
but yielding the position of the selected entry (`none` when the list is
exhausted and `Weighted` falls through to `return 0`). -/
def selectIdx : WeightedServiceTimes → Int → Option Nat
  | [], _ => none
  | wl :: rest, weight =>
      if weight - (wl.weight : Int) < 0 then some 0
      else (selectIdx rest (weight - (wl.weight : Int))).map (· + 1)

/-- Running weight sum of the first `n` entries. -/
def prefixWeight (w : WeightedServiceTimes) (n : Nat) : Nat :=
  sumWeights (w.take n)

/-! ## Client request classification (`Client.sendRequest`) -/

/-- Metric/log events emitted by `Client.sendRequest`, in program order.
`fatalLog` stands for `logger.Fatalw`, which logs and then calls
`os.Exit(1)`: no statement after it runs. -/
inductive CEvent
  | incTotal
  | invokePipeline
  | observeResponseTime
  | incSuccesses
  | incRejected
  | incTimeouts
  | incFailures
  | fatalLog
deriving DecidableEq

/-- The classes of error an attempt through the failsafe round-tripper can
produce.  Each concrete Go error value matches exactly one class: the
rejection sentinels (`ratelimiter.ErrExceeded`, `adaptivelimiter.ErrExceeded`,
`bulkhead.ErrFull`, `circuitbreaker.ErrOpen`) and `timeout.ErrExceeded` are
distinct sentinel errors, and a `net.Error` whose `Timeout()` is true wraps
none of the rejection sentinels. -/
inductive ErrKind
  | rateLimiterExceeded
  | adaptiveLimiterExceeded
  | bulkheadFull
  | circuitOpen
  | timeoutExceeded
  | netTimeout
  | other
deriving DecidableEq

/-- The `errors.Is` test against the four rejection sentinels. -/
def isRejectionErr : ErrKind → Bool
  | .rateLimiterExceeded => true
  | .adaptiveLimiterExceeded => true
  | .bulkheadFull => true
  | .circuitOpen => true
  | _ => false

/-- The `errors.Is(err, timeout.ErrExceeded) || netErr.Timeout()` test. -/
def isTimeoutErr : ErrKind → Bool
  | .timeoutExceeded => true
  | .netTimeout => true
  | _ => false

/-- Outcome of `httpClient.Do`: either an error, or a response carrying a
status code (`Do` returns a non-nil response exactly when the error is nil). -/
inductive ReqOutcome
  | errResult (k : ErrKind)
  | response (status : Nat)
deriving DecidableEq

/-- The ordered event trace of one `Client.sendRequest` attempt, mirroring
the source: `ClientReqTotal.Inc()` immediately before `httpClient.Do`, then
the error branch (rejection check, timeout check, unconditional
`ClientReqFailures.Inc()`) or the status-code switch (200, 429, 500,
408/503/504, default `Fatalw` — after which the trailing
`ClientReqFailures.Inc()` is unreachable). -/
def sendRequestTrace (o : ReqOutcome) : List CEvent :=
  [CEvent.incTotal, CEvent.invokePipeline] ++
    match o with
    | .errResult k =>
        (if isRejectionErr k then [CEvent.incRejected] else []) ++
          (if isTimeoutErr k then [CEvent.observeResponseTime, CEvent.incTimeouts] else []) ++
          [CEvent.incFailures]
    | .response s =>
        if s = 200 then [CEvent.observeResponseTime, CEvent.incSuccesses]
        else if s = 429 then [CEvent.incRejected, CEvent.incFailures]
        else if s = 500 then [CEvent.incFailures]
        else if s = 408 ∨ s = 503 ∨ s = 504 then
          [CEvent.observeResponseTime, CEvent.incTimeouts, CEvent.incFailures]
        else [CEvent.fatalLog]

/-- Counter deltas of one attempt, read off the event trace. -/
structure Deltas where
  total : Nat
  successes : Nat
  rejected : Nat
  timeouts : Nat
  failures : Nat
  observations : Nat
  fatal : Nat
deriving DecidableEq

/-- The deltas `Client.sendRequest` applies for a given outcome. -/
def sendRequestDeltas (o : ReqOutcome) : Deltas :=
  let t := sendRequestTrace o
  ⟨t.count CEvent.incTotal, t.count CEvent.incSuccesses, t.count CEvent.incRejected,
    t.count CEvent.incTimeouts, t.count CEvent.incFailures,
    t.count CEvent.observeResponseTime, t.count CEvent.fatalLog⟩

/-- Event trace of a whole run: the attempts' traces concatenated. -/
def runTrace (os : List ReqOutcome) : List CEvent :=
  (os.map sendRequestTrace).flatten

/-! ## Server request handling (`Server.handleRequest`) -/

/-- Worker-semaphore events of the server's per-request slicing loop. -/
inductive SEvent
  | acquire
  | sleep (d : Int)
  | release
deriving DecidableEq

/-- The slicing loop of `handleRequest`, as an event trace: while
`workCompleted < serviceTime` (and the request context is live; the model
runs the uncancelled loop), take a permit, sleep for the increment, return
the permit, and advance `workCompleted` by the increment.  Requires a
positive increment to terminate. -/
def workLoop (T inc : Int) (hinc : 0 < inc) (done : Int) : List SEvent :=
  if done < T then
    SEvent.acquire :: SEvent.sleep inc :: SEvent.release ::
      workLoop T inc hinc (done + inc)
  else []
termination_by (T - done).toNat
decreasing_by omega

/-- Result of the handler for one request: a 400 reply on a body parse
error, a 200 reply after the slice trace, or divergence when the increment
truncates to zero while work remains (the loop then never advances).
The service-time and inflight gauge writes around the loop are not part of
this model. -/
inductive HandlerResult
  | badRequest
  | ok (events : List SEvent)
  | hangs
deriving DecidableEq

/-- `Server.handleRequest`: parse the declared service time (a failed parse
replies 400), compute `workIncrement := serviceTime / 100` (Go integer
division truncates), and run the slicing loop; the handler then returns,
which writes an implicit 200.  The dependent if performs the termination
analysis of the Go `for` loop: with a positive increment the loop finishes
after finitely many slices; with `0 < T` and a zero increment it never
advances (`hangs`); otherwise the body never runs. -/
def handleRequest (body : Option Int) : HandlerResult :=
  match body with
  | none => .badRequest
  | some T =>
      if h : 0 < goQuot T 100 then .ok (workLoop T (goQuot T 100) h 0)
      else if 0 < T then .hangs
      else .ok []

/-! ## Server worker pool (`NewServer`, `Server.Start`, `Server.UpdateConfig`) -/

/-- Server worker-pool state: the `availableThreads` channel's capacity
(fixed at creation) and current buffered permit count, the stored
`config.Threads`, and the `server_threads` gauge.  Channel sends and
receives are modelled by their net effect on the buffered count; blocking
(a send on a full buffer, a receive on an empty one) is a concurrency
aspect outside this functional model. -/
structure ServerState where
  capacity : Nat
  available : Nat
  threads : Nat
  gaugeThreads : Nat
deriving DecidableEq

/-- `NewServer`: allocates `availableThreads := make(chan struct, Threads)`
(capacity `Threads`, initially empty) and stores the config. -/
def NewServer (threads : Nat) : ServerState :=
  { capacity := threads, available := 0, threads := threads, gaugeThreads := 0 }

/-- The worker preparation in `Server.Start`: set the `server_threads` gauge
and send `Threads` permits into the channel. -/
def startServer (s : ServerState) : ServerState :=
  { s with gaugeThreads := s.threads, available := s.available + s.threads }

/-- `Server.UpdateConfig` under the write lock: read `oldThreads`, store the
new thread count, then release `new - old` permits when growing, drain
`old - new` permits when shrinking (the drain blocks until that many
permits have been received), and finally set the `server_threads` gauge. -/
def UpdateConfig (s : ServerState) (newThreads : Nat) : ServerState :=
  let oldThreads := s.threads
  let s1 := { s with threads := newThreads }
  let s2 :=
    if newThreads > oldThreads then
      { s1 with available := s1.available + (newThreads - oldThreads) }
    else if newThreads < oldThreads then
      { s1 with available := s1.available - (oldThreads - newThreads) }
    else s1
  { s2 with gaugeThreads := newThreads }

/-! ## Client stage driver (`Client.performStage`) -/

/-- Go integer division as used for the ticker interval: division by zero is
a runtime panic, modelled as `none`. -/
def goDurationQuot (a b : Int) : Option Int :=
  if b = 0 then none else some (Int.tdiv a b)

/-- What `performStage` does before entering its select loop, as a function
of the stage's rps: it computes `time.Second / time.Duration(stage.RPS)` and
creates a ticker with that interval.  When `rps = 0` the division itself
panics (integer divide by zero), before any ticker exists.
`disabledNoTicker` is never produced by the code; it is the behavior the
spec ascribes to `rps = 0` (see `specStageStartup`). -/
inductive TickerSetup
  | panicsDivByZero
  | ticks (interval : Int)
  | disabledNoTicker
deriving DecidableEq

/-- The ticker setup of `Client.performStage` (and identically
`performWorkload`), from the source. -/
def performStageStartup (rps : Nat) : TickerSetup :=
  match goDurationQuot 1000000000 (Int.ofNat rps) with
  | none => .panicsDivByZero
  | some d => .ticks d

/-- The stage startup as the spec describes it (claim-side definition for
comparison): an rps of 0 disables the stage — no ticker is created. -/
def specStageStartup (rps : Nat) : TickerSetup :=
  if rps = 0 then .disabledNoTicker
  else .ticks (Int.tdiv 1000000000 (Int.ofNat rps))


/-! ## Config parsing and control plane (main package `parseConfig`,
`updateClients`, `updateServers`) -/

/-- `client.Workload` as relevant to config handling. -/
structure Workload where
  name : String
  rps : Nat
  serviceTimes : WeightedServiceTimes
  weightSum : Int
deriving DecidableEq

/-- `configureWorkloads`: stores each workload's weight sum
(`workload.WeightSum = int(workload.ServiceTimes.Sum())`). -/
def configureWorkloads (ws : List Workload) : List Workload :=
  ws.map fun w => { w with weightSum := (sumWeights w.serviceTimes : Int) }

/-- `client.Stage` during config parsing.  `rps = 0` is YAML's zero value for
an unset `rps`; `serviceTimes = none` models an unset (`nil`) list. -/
structure StageC where
  duration : Int
  rps : Nat
  serviceTimes : Option WeightedServiceTimes
  weightSum : Int
deriving DecidableEq

/-- Weight sum of a possibly-nil service-time list (`Sum` over a nil Go
slice is 0). -/
def sumWeightsOpt : Option WeightedServiceTimes → Nat
  | none => 0
  | some l => sumWeights l

/-- One iteration of `parseConfig`'s stage loop: when a previous stage
exists, an unset `rps` and unset `service_times` are carried over from it;
then `WeightSum` is recomputed from the (possibly carried-over) service
times. -/
def normStage (prev : Option StageC) (st : StageC) : StageC :=
  let st1 :=
    match prev with
    | none => st
    | some p =>
        { st with
            rps := if st.rps = 0 then p.rps else st.rps,
            serviceTimes :=
              if st.serviceTimes = none then p.serviceTimes else st.serviceTimes }
  { st1 with weightSum := (sumWeightsOpt st1.serviceTimes : Int) }

/-- `parseConfig`'s stage-normalization loop: `previousStage` is the
already-normalized stage, so carried-over values chain. -/
def carryStages (prev : Option StageC) : List StageC → List StageC
  | [] => []
  | st :: rest => normStage prev st :: carryStages (some (normStage prev st)) rest

/-- Outcome of reading and YAML-unmarshalling a control-plane POST body
(`parseConfigUpdate`): a read error or a parse error each reply 400 and
return false; success returns the parsed value. -/
inductive Body (α : Type)
  | readError
  | parseError
  | ok (a : α)
deriving DecidableEq

/-- `updateClients`: only when `parseConfigUpdate` succeeds are the parsed
workloads configured and every client's workload set replaced (each
`cl.UpdateWorkloads(workloads)`), replying 200; otherwise
`parseConfigUpdate` has already replied 400 and nothing runs. -/
def updateClients (clients : List (List Workload)) (b : Body (List Workload)) :
    List (List Workload) × Nat :=
  match b with
  | .ok ws => (clients.map fun _ => configureWorkloads ws, 200)
  | .parseError => (clients, 400)
  | .readError => (clients, 400)

/-- `updateServers`: only when `parseConfigUpdate` succeeds is
`UpdateConfig` applied to every server, replying 200; otherwise 400 and no
mutation. -/
def updateServers (servers : List ServerState) (b : Body Nat) :
    List ServerState × Nat :=
  match b with
  | .ok n => (servers.map fun s => UpdateConfig s n, 200)
  | .parseError => (servers, 400)
  | .readError => (servers, 400)

theorem sumWeights_cons (wl : WeightedServiceTime) (rest : WeightedServiceTimes) :
    sumWeights (wl :: rest) = wl.weight + sumWeights rest := by
  simp [sumWeights]

theorem prefixWeight_zero (w : WeightedServiceTimes) : prefixWeight w 0 = 0 := rfl

theorem prefixWeight_nil (n : Nat) : prefixWeight [] n = 0 := by
  simp [prefixWeight, sumWeights]

theorem prefixWeight_cons_succ (wl : WeightedServiceTime) (rest : WeightedServiceTimes)
    (k : Nat) : prefixWeight (wl :: rest) (k + 1) = wl.weight + prefixWeight rest k := by
  simp [prefixWeight, List.take_succ_cons, sumWeights_cons]

theorem prefixWeight_succ (w : WeightedServiceTimes) (n : Nat) :
    prefixWeight w (n + 1) =
      prefixWeight w n + (match w[n]? with | some e => e.weight | none => 0) := by
  induction w generalizing n with
  | nil => simp [prefixWeight_nil]
  | cons wl rest ih =>
      cases n with
      | zero => simp [prefixWeight_zero, prefixWeight_cons_succ]
      | succ m => simp only [prefixWeight_cons_succ, ih m, List.getElem?_cons_succ]; omega

theorem prefixWeight_le_sum (w : WeightedServiceTimes) (n : Nat) :
    prefixWeight w n ≤ sumWeights w := by
  induction w generalizing n with
  | nil => simp [prefixWeight_nil]
  | cons wl rest ih =>
      cases n with
      | zero => simp [prefixWeight_zero]
      | succ m => rw [prefixWeight_cons_succ, sumWeights_cons]; exact Nat.add_le_add_left (ih m) _

theorem prefixWeight_mono (w : WeightedServiceTimes) {m n : Nat} (h : m ≤ n) :
    prefixWeight w m ≤ prefixWeight w n := by
  induction n with
  | zero =>
      have hm : m = 0 := by omega
      subst hm; exact Nat.le_refl _
  | succ k ih =>
      rcases Nat.lt_or_ge m (k + 1) with hm | hm
      · have h1 := ih (by omega)
        have h2 := prefixWeight_succ w k
        omega
      · have hm2 : m = k + 1 := by omega
        subst hm2; exact Nat.le_refl _

/-- `Weighted` returns the service time of the entry `selectIdx` picks. -/
theorem Weighted_eq_of_selectIdx (w : WeightedServiceTimes) (r : Int) (i : Nat)
    (h : selectIdx w r = some i) :
    ∃ e, w[i]? = some e ∧ Weighted w r = e.serviceTime := by
  induction w generalizing r i with
  | nil => simp [selectIdx] at h
  | cons wl rest ih =>
      by_cases hc : r - (wl.weight : Int) < 0
      · simp only [selectIdx, if_pos hc, Option.some.injEq] at h
        subst h
        exact ⟨wl, by simp, by simp [Weighted, hc]⟩
      · simp only [selectIdx, if_neg hc, Option.map_eq_some'] at h
        obtain ⟨k, hk, hki⟩ := h
        subst hki
        obtain ⟨e, he, hwe⟩ := ih _ _ hk
        exact ⟨e, by simpa using he, by simp [Weighted, hc, hwe]⟩

/-- `Weighted` returns 0 exactly when the traversal falls off the end. -/
theorem Weighted_eq_zero_of_selectIdx_none (w : WeightedServiceTimes) (r : Int)
    (h : selectIdx w r = none) : Weighted w r = 0 := by
  induction w generalizing r with
  | nil => simp [Weighted]
  | cons wl rest ih =>
      by_cases hc : r - (wl.weight : Int) < 0
      · simp [selectIdx, hc] at h
      · simp only [selectIdx, if_neg hc, Option.map_eq_none'] at h
        simp [Weighted, hc, ih _ h]

/-- Characterization: for a non-negative draw, `selectIdx` picks `i` exactly
when the draw lies in the `i`-th prefix-weight window. -/
theorem selectIdx_eq_some_iff (w : WeightedServiceTimes) (r : Int) (i : Nat) (hr : 0 ≤ r) :
    selectIdx w r = some i ↔
      (prefixWeight w i : Int) ≤ r ∧ r < (prefixWeight w (i + 1) : Int) := by
  induction w generalizing r i with
  | nil => simp [selectIdx, prefixWeight_nil]
  | cons wl rest ih =>
      by_cases hc : r - (wl.weight : Int) < 0
      · cases i with
        | zero =>
            constructor
            · intro _
              refine ⟨by simpa [prefixWeight_zero] using hr, ?_⟩
              rw [prefixWeight_cons_succ, prefixWeight_zero]
              push_cast
              omega
            · intro _
              simp [selectIdx, hc]
        | succ k =>
            constructor
            · intro h
              simp [selectIdx, hc] at h
            · rintro ⟨h1, h2⟩
              exfalso
              rw [prefixWeight_cons_succ] at h1
              push_cast at h1
              omega
      · cases i with
        | zero =>
            constructor
            · intro h
              simp [selectIdx, hc, Option.map_eq_some'] at h
            · rintro ⟨h1, h2⟩
              exfalso
              rw [prefixWeight_cons_succ, prefixWeight_zero] at h2
              push_cast at h2
              omega
        | succ k =>
            have hrec := ih (r - (wl.weight : Int)) k (by omega)
            constructor
            · intro h
              simp only [selectIdx, if_neg hc, Option.map_eq_some'] at h
              obtain ⟨j, hj, hjk⟩ := h
              have hjk2 : j = k := by omega
              subst hjk2
              have hfin := hrec.mp hj
              rw [prefixWeight_cons_succ, prefixWeight_cons_succ]
              push_cast at hfin ⊢
              omega
            · rintro ⟨h1, h2⟩
              rw [prefixWeight_cons_succ] at h1 h2
              simp only [selectIdx, if_neg hc, Option.map_eq_some']
              refine ⟨k, hrec.mpr ?_, rfl⟩
              push_cast at h1 h2 ⊢
              omega

/-- Totality on in-range draws: a draw below the weight sum selects an entry. -/
theorem selectIdx_total (w : WeightedServiceTimes) (r : Int) (hr : 0 ≤ r)
    (hw : r < (sumWeights w : Int)) : ∃ i, selectIdx w r = some i := by
  induction w generalizing r with
  | nil => simp [sumWeights] at hw; omega
  | cons wl rest ih =>
      by_cases hc : r - (wl.weight : Int) < 0
      · exact ⟨0, by simp [selectIdx, hc]⟩
      · rw [sumWeights_cons] at hw
        push_cast at hw
        obtain ⟨k, hk⟩ := ih (r - (wl.weight : Int)) (by omega) (by omega)
        exact ⟨k + 1, by simp [selectIdx, hc, hk]⟩

/-- Counting: among the draws `0 .. weight_sum - 1`, exactly `weight_i` of
them select entry `i`. -/
theorem selectIdx_count (w : WeightedServiceTimes) (i : Nat) (e : WeightedServiceTime)
    (he : w[i]? = some e) :
    ((Finset.range (sumWeights w)).filter
        (fun s : Nat => selectIdx w (s : Int) = some i)).card = e.weight := by
  have hb : prefixWeight w (i + 1) = prefixWeight w i + e.weight := by
    have hs := prefixWeight_succ w i
    rw [he] at hs
    exact hs
  have hle : prefixWeight w (i + 1) ≤ sumWeights w := prefixWeight_le_sum w (i + 1)
  have hset : (Finset.range (sumWeights w)).filter
        (fun s : Nat => selectIdx w (s : Int) = some i)
      = Finset.Ico (prefixWeight w i) (prefixWeight w (i + 1)) := by
    ext s
    simp only [Finset.mem_filter, Finset.mem_range, Finset.mem_Ico]
    constructor
    · rintro ⟨hs, hsel⟩
      have hch := (selectIdx_eq_some_iff w (s : Int) i
        (by exact_mod_cast Nat.zero_le s)).mp hsel
      exact ⟨by exact_mod_cast hch.1, by exact_mod_cast hch.2⟩
    · rintro ⟨h1, h2⟩
      refine ⟨by omega, ?_⟩
      exact (selectIdx_eq_some_iff w (s : Int) i (by exact_mod_cast Nat.zero_le s)).mpr
        ⟨by exact_mod_cast h1, by exact_mod_cast h2⟩
  rw [hset, Nat.card_Ico]
  omega


/-- Claim C1: for a draw `0 ≤ r < weight_sum`, `Weighted` returns the service
time of the first entry whose running weight prefix strictly exceeds `r`
(entry `k` with `prefix(k) ≤ r < prefix(k+1)`, all earlier prefixes `≤ r`),
and sampling once for each draw in `0 .. weight_sum - 1` selects entry `i`
exactly `weight_i` times. -/
theorem weighted_sampler_correct (w : WeightedServiceTimes) (r : Int) (i : Nat)
    (e : WeightedServiceTime) (hr0 : 0 ≤ r) (hrW : r < (sumWeights w : Int))
    (hie : w[i]? = some e) :
    (∃ k ek, w[k]? = some ek ∧ selectIdx w r = some k ∧ Weighted w r = ek.serviceTime ∧
       (prefixWeight w k : Int) ≤ r ∧ r < (prefixWeight w (k + 1) : Int) ∧
       ∀ j, j < k → (prefixWeight w (j + 1) : Int) ≤ r) ∧
    ((Finset.range (sumWeights w)).filter
        (fun s : Nat => selectIdx w (s : Int) = some i)).card = e.weight := by
  refine ⟨?_, selectIdx_count w i e hie⟩
  obtain ⟨k, hk⟩ := selectIdx_total w r hr0 hrW
  obtain ⟨ek, hek, hwk⟩ := Weighted_eq_of_selectIdx w r k hk
  have hchar := (selectIdx_eq_some_iff w r k hr0).mp hk
  refine ⟨k, ek, hek, hk, hwk, hchar.1, hchar.2, ?_⟩
  intro j hj
  calc (prefixWeight w (j + 1) : Int) ≤ (prefixWeight w k : Int) := by
        exact_mod_cast prefixWeight_mono w (by omega)
    _ ≤ r := hchar.1

/-- Witness for C1 at `w = [{50ms·1}, {100ms·2}]`, `r = 1`, entry `i = 1`. -/
theorem weighted_sampler_correct_witness :
    ((0 : Int) ≤ 1 ∧ (1 : Int) < (sumWeights [⟨50, 1⟩, ⟨100, 2⟩] : Int) ∧
      ([⟨50, 1⟩, ⟨100, 2⟩] : WeightedServiceTimes)[1]? = some ⟨100, 2⟩) ∧
    ((∃ k ek, ([⟨50, 1⟩, ⟨100, 2⟩] : WeightedServiceTimes)[k]? = some ek ∧
        selectIdx [⟨50, 1⟩, ⟨100, 2⟩] 1 = some k ∧
        Weighted [⟨50, 1⟩, ⟨100, 2⟩] 1 = ek.serviceTime ∧
        (prefixWeight [⟨50, 1⟩, ⟨100, 2⟩] k : Int) ≤ 1 ∧
        1 < (prefixWeight [⟨50, 1⟩, ⟨100, 2⟩] (k + 1) : Int) ∧
        ∀ j, j < k → (prefixWeight [⟨50, 1⟩, ⟨100, 2⟩] (j + 1) : Int) ≤ 1) ∧
      ((Finset.range (sumWeights [⟨50, 1⟩, ⟨100, 2⟩])).filter
        (fun s : Nat =>
          selectIdx [⟨50, 1⟩, ⟨100, 2⟩] (s : Int) = some 1)).card =
        (⟨100, 2⟩ : WeightedServiceTime).weight) :=
  ⟨⟨by decide, by decide, by decide⟩,
    weighted_sampler_correct _ 1 1 _ (by decide) (by decide) (by decide)⟩

/-- Claim C10: `Weighted` is total on out-of-range draws: any draw at or above
the weight sum (in particular any draw against the empty list) returns
duration 0, with no error path. -/
theorem weighted_out_of_range_zero (w : WeightedServiceTimes) (r : Int)
    (h : (sumWeights w : Int) ≤ r) :
    Weighted w r = 0 ∧ ∀ s : Int, Weighted [] s = 0 := by
  refine ⟨?_, fun s => rfl⟩
  induction w generalizing r with
  | nil => rfl
  | cons wl rest ih =>
      rw [sumWeights_cons] at h
      push_cast at h
      have hc : ¬ r - (wl.weight : Int) < 0 := by omega
      simp only [Weighted, if_neg hc]
      exact ih _ (by omega)

/-- Witness for C10 at the repository test's list `[{50ms·10}]` with the
out-of-range draw 20 (the `no matching service time` test case). -/
theorem weighted_out_of_range_zero_witness :
    ((sumWeights [⟨50000000, 10⟩] : Int) ≤ 20) ∧
      (Weighted [⟨50000000, 10⟩] 20 = 0 ∧ ∀ s : Int, Weighted [] s = 0) :=
  ⟨by decide, weighted_out_of_range_zero _ 20 (by decide)⟩
/-- Claim C2 counterexample: an attempt whose response status is 400 (a code
outside the classification switch) increments `total` but records none of
the four outcome classes — `Fatalw` aborts before `ClientReqFailures.Inc()`
— so `exactly one outcome per attempt` fails at this input. -/
theorem sendRequest_unknown_status_no_outcome :
    (sendRequestDeltas (.response 400)).total = 1 ∧
    (sendRequestDeltas (.response 400)).successes = 0 ∧
    (sendRequestDeltas (.response 400)).rejected = 0 ∧
    (sendRequestDeltas (.response 400)).timeouts = 0 ∧
    (sendRequestDeltas (.response 400)).failures = 0 := by decide

/-- Claim C2 (amended): for every attempt whose outcome is classified — any
transport error, or a response status in {200, 429, 500, 408, 503, 504},
i.e. any attempt not hitting the fatal-log path — `total` is incremented
exactly once, exactly one of {success, rejected, timeout,
failure-without-timeout} is recorded, and
`total = successes + rejected + timeouts + non-timeout-failures`
`= successes + failures`. -/
theorem sendRequest_conservation (o : ReqOutcome)
    (h : (sendRequestDeltas o).fatal = 0) :
    (sendRequestDeltas o).total = 1 ∧
    (sendRequestDeltas o).rejected + (sendRequestDeltas o).timeouts ≤
      (sendRequestDeltas o).failures ∧
    (sendRequestDeltas o).successes + (sendRequestDeltas o).rejected +
      (sendRequestDeltas o).timeouts +
      ((sendRequestDeltas o).failures -
        ((sendRequestDeltas o).rejected + (sendRequestDeltas o).timeouts)) = 1 ∧
    (sendRequestDeltas o).total =
      (sendRequestDeltas o).successes + (sendRequestDeltas o).rejected +
      (sendRequestDeltas o).timeouts +
      ((sendRequestDeltas o).failures -
        ((sendRequestDeltas o).rejected + (sendRequestDeltas o).timeouts)) ∧
    (sendRequestDeltas o).total =
      (sendRequestDeltas o).successes + (sendRequestDeltas o).failures := by
  cases o with
  | errResult k => cases k <;> revert h <;> decide
  | response s =>
      rcases eq_or_ne s 200 with rfl | h200
      · revert h; decide
      rcases eq_or_ne s 429 with rfl | h429
      · revert h; decide
      rcases eq_or_ne s 500 with rfl | h500
      · revert h; decide
      rcases eq_or_ne s 408 with rfl | h408
      · revert h; decide
      rcases eq_or_ne s 503 with rfl | h503
      · revert h; decide
      rcases eq_or_ne s 504 with rfl | h504
      · revert h; decide
      exfalso
      simp only [sendRequestDeltas, sendRequestTrace, if_neg h200, if_neg h429,
        if_neg h500] at h
      rw [if_neg (by simp [h408, h503, h504])] at h
      exact absurd h (by decide)

/-- Witness for the amended C2 at a 200 response. -/
theorem sendRequest_conservation_witness :
    (sendRequestDeltas (.response 200)).fatal = 0 ∧
    ((sendRequestDeltas (.response 200)).total = 1 ∧
      (sendRequestDeltas (.response 200)).rejected +
        (sendRequestDeltas (.response 200)).timeouts ≤
        (sendRequestDeltas (.response 200)).failures ∧
      (sendRequestDeltas (.response 200)).successes +
        (sendRequestDeltas (.response 200)).rejected +
        (sendRequestDeltas (.response 200)).timeouts +
        ((sendRequestDeltas (.response 200)).failures -
          ((sendRequestDeltas (.response 200)).rejected +
            (sendRequestDeltas (.response 200)).timeouts)) = 1 ∧
      (sendRequestDeltas (.response 200)).total =
        (sendRequestDeltas (.response 200)).successes +
        (sendRequestDeltas (.response 200)).rejected +
        (sendRequestDeltas (.response 200)).timeouts +
        ((sendRequestDeltas (.response 200)).failures -
          ((sendRequestDeltas (.response 200)).rejected +
            (sendRequestDeltas (.response 200)).timeouts)) ∧
      (sendRequestDeltas (.response 200)).total =
        (sendRequestDeltas (.response 200)).successes +
        (sendRequestDeltas (.response 200)).failures) :=
  ⟨by decide, sendRequest_conservation (.response 200) (by decide)⟩

/-- Per-attempt: `sendRequest` observes the response-time histogram exactly
on the success and timeout paths. -/
theorem sendRequest_observation_eq (o : ReqOutcome) :
    (sendRequestTrace o).count CEvent.observeResponseTime =
      (sendRequestTrace o).count CEvent.incSuccesses +
        (sendRequestTrace o).count CEvent.incTimeouts := by
  cases o with
  | errResult k => cases k <;> decide
  | response s =>
      rcases eq_or_ne s 200 with rfl | h200
      · decide
      rcases eq_or_ne s 429 with rfl | h429
      · decide
      rcases eq_or_ne s 500 with rfl | h500
      · decide
      rcases eq_or_ne s 408 with rfl | h408
      · decide
      rcases eq_or_ne s 503 with rfl | h503
      · decide
      rcases eq_or_ne s 504 with rfl | h504
      · decide
      simp only [sendRequestTrace, if_neg h200, if_neg h429, if_neg h500]
      rw [if_neg (by simp [h408, h503, h504])]
      decide

/-- Claim C9: over any run (any sequence of attempt outcomes), the number of
response-time observations equals the number of recorded successes plus the
number of recorded timeouts. -/
theorem run_observation_count (os : List ReqOutcome) :
    (runTrace os).count CEvent.observeResponseTime =
      (runTrace os).count CEvent.incSuccesses +
        (runTrace os).count CEvent.incTimeouts := by
  induction os with
  | nil => simp [runTrace]
  | cons o rest ih =>
      have hstep : runTrace (o :: rest) = sendRequestTrace o ++ runTrace rest := by
        simp [runTrace]
      rw [hstep]
      simp only [List.count_append]
      have hattempt := sendRequest_observation_eq o
      omega

/-- Claim C6 counterexample: at an unknown status code (418) the client does
not record a generic failure and the process does not continue — the trace
ends in the fatal log (`Fatalw` calls `os.Exit(1)`). -/
theorem unknown_status_crashes :
    (sendRequestDeltas (.response 418)).fatal = 1 ∧
    (sendRequestDeltas (.response 418)).failures = 0 := by decide

/-- Claim C6 (amended): for a response status outside
{200, 429, 500, 408, 503, 504}, `sendRequest` logs the code at fatal level
and the process exits; no failure (or any other outcome counter) is
recorded after the fatal log. -/
theorem unknown_status_fatal (s : Nat) (h200 : s ≠ 200) (h429 : s ≠ 429)
    (h500 : s ≠ 500) (h408 : s ≠ 408) (h503 : s ≠ 503) (h504 : s ≠ 504) :
    sendRequestTrace (.response s) =
      [CEvent.incTotal, CEvent.invokePipeline, CEvent.fatalLog] := by
  simp only [sendRequestTrace, if_neg h200, if_neg h429, if_neg h500]
  rw [if_neg (by simp [h408, h503, h504])]
  rfl

/-- Witness for the amended C6 at status 418. -/
theorem unknown_status_fatal_witness :
    (418 ≠ 200 ∧ 418 ≠ 429 ∧ 418 ≠ 500 ∧ 418 ≠ 408 ∧ 418 ≠ 503 ∧ 418 ≠ 504) ∧
    sendRequestTrace (.response 418) =
      [CEvent.incTotal, CEvent.invokePipeline, CEvent.fatalLog] :=
  ⟨⟨by decide, by decide, by decide, by decide, by decide, by decide⟩,
    unknown_status_fatal 418 (by decide) (by decide) (by decide) (by decide)
      (by decide) (by decide)⟩
theorem workLoop_eq (T inc : Int) (h : 0 < inc) (done : Int) :
    workLoop T inc h done =
      if done < T then
        SEvent.acquire :: SEvent.sleep inc :: SEvent.release ::
          workLoop T inc h (done + inc)
      else [] := by
  rw [workLoop]

/-- Closed form of the slicing loop when the remaining work is an exact
multiple of the increment: `n` acquire/sleep/release rounds. -/
theorem workLoop_multiple (k : Int) (hk : 0 < k) (n : Nat) :
    ∀ T done : Int, T - done = (n : Int) * k →
      workLoop T k hk done =
        (List.replicate n [SEvent.acquire, SEvent.sleep k, SEvent.release]).flatten := by
  induction n with
  | zero =>
      intro T done hTd
      rw [workLoop_eq]
      have hnlt : ¬ done < T := by push_cast at hTd; omega
      simp [hnlt]
  | succ m ih =>
      intro T done hTd
      rw [workLoop_eq]
      have hexp : ((m : Int) + 1) * k = (m : Int) * k + k := by ring
      have hpos : 0 < ((m : Int) + 1) * k :=
        mul_pos (by positivity) hk
      push_cast at hTd
      have hlt : done < T := by omega
      rw [if_pos hlt, ih T (done + k) (by omega)]
      simp [List.replicate_succ]

set_option maxRecDepth 4000 in
/-- Claim C3 counterexample: a declared service time of 150ns yields an
increment of 1ns (integer truncation of 150/100) and hence 150 slices, not
100: the handler's trace is 150 acquire/sleep/release rounds, which differs
from the 100-round trace the claim predicts. -/
theorem handler_150ns_not_100_slices :
    handleRequest (some 150) =
      .ok ((List.replicate 150
        [SEvent.acquire, SEvent.sleep 1, SEvent.release]).flatten) ∧
    handleRequest (some 150) ≠
      .ok ((List.replicate 100
        [SEvent.acquire, SEvent.sleep (goQuot 150 100), SEvent.release]).flatten) := by
  have hq : goQuot 150 100 = 1 := by decide
  have h1 : handleRequest (some 150) =
      HandlerResult.ok (workLoop 150 (goQuot 150 100) (by decide) 0) := by
    simp only [handleRequest]
    rw [dif_pos (by decide : (0 : Int) < goQuot 150 100)]
  have h2 : workLoop 150 (goQuot 150 100) (by decide) 0 =
      (List.replicate 150 [SEvent.acquire, SEvent.sleep 1, SEvent.release]).flatten := by
    simp only [hq]
    exact workLoop_multiple 1 (by decide) 150 150 0 (by norm_num)
  constructor
  · rw [h1, h2]
  · rw [h1, h2, hq]
    decide

/-- Claim C3 (amended): for every declared service time `T > 0` divisible by
100 (in nanoseconds — every whole-microsecond duration qualifies), the
handler performs exactly 100 slices, each acquiring one worker permit,
sleeping for the increment `T / 100`, and releasing the permit, and replies
200.  (For `T` not divisible by 100 the count exceeds 100, and for
`0 < T < 100` the increment truncates to 0 and the loop never terminates.) -/
theorem handler_hundred_slices (T : Int) (hT : 0 < T) (hdvd : 100 ∣ T) :
    handleRequest (some T) =
      .ok ((List.replicate 100
        [SEvent.acquire, SEvent.sleep (goQuot T 100), SEvent.release]).flatten) := by
  obtain ⟨k, hk⟩ := hdvd
  have hkpos : 0 < k := by nlinarith
  have hq : goQuot T 100 = k := by
    rw [hk, goQuot]
    exact Int.mul_tdiv_cancel_left k (by norm_num)
  have hqpos : 0 < goQuot T 100 := by rw [hq]; exact hkpos
  simp only [handleRequest]
  rw [dif_pos hqpos]
  have hrem : T - 0 = ((100 : Nat) : Int) * goQuot T 100 := by
    rw [hq]
    push_cast
    omega
  rw [workLoop_multiple (goQuot T 100) hqpos 100 T 0 hrem]

/-- Witness for the amended C3 at `T = 50ms`. -/
theorem handler_hundred_slices_witness :
    ((0 : Int) < 50000000 ∧ (100 : Int) ∣ 50000000) ∧
    handleRequest (some 50000000) =
      .ok ((List.replicate 100
        [SEvent.acquire, SEvent.sleep (goQuot 50000000 100), SEvent.release]).flatten) :=
  ⟨⟨by decide, ⟨500000, by norm_num⟩⟩,
    handler_hundred_slices 50000000 (by decide) ⟨500000, by norm_num⟩⟩

/-- Claim C4: `UpdateConfig` resizes worker capacity: growing from `m` to
`n > m` releases `n - m` additional permits, shrinking to `n < m` drains
`m - n` permits, and in all cases the stored thread count and the
`server_threads` gauge equal `n` afterward; the net permit change is
`n - m`.  (The drain hypothesis reflects that the drain blocks on in-use
permits until `m - n` are actually received.) -/
theorem updateConfig_resizes (s : ServerState) (n : Nat)
    (hdrain : n < s.threads → s.threads - n ≤ s.available) :
    (UpdateConfig s n).threads = n ∧
    (UpdateConfig s n).gaugeThreads = n ∧
    (s.threads < n → (UpdateConfig s n).available = s.available + (n - s.threads)) ∧
    (n < s.threads → (UpdateConfig s n).available = s.available - (s.threads - n)) ∧
    ((UpdateConfig s n).available : Int) =
      (s.available : Int) + (n : Int) - (s.threads : Int) := by
  simp only [UpdateConfig]
  split_ifs with h1 h2 <;> dsimp only
  · refine ⟨?_, ?_, ?_, ?_, ?_⟩ <;>
      first
        | trivial
        | omega
  · have hav := hdrain h2
    refine ⟨?_, ?_, ?_, ?_, ?_⟩ <;>
      first
        | trivial
        | omega
  · refine ⟨?_, ?_, ?_, ?_, ?_⟩ <;>
      first
        | trivial
        | omega

/-- Witness for C4: a server started with 8 threads, shrunk to 4. -/
theorem updateConfig_resizes_witness :
    (4 < (startServer (NewServer 8)).threads →
      (startServer (NewServer 8)).threads - 4 ≤ (startServer (NewServer 8)).available) ∧
    ((UpdateConfig (startServer (NewServer 8)) 4).threads = 4 ∧
      (UpdateConfig (startServer (NewServer 8)) 4).gaugeThreads = 4 ∧
      ((startServer (NewServer 8)).threads < 4 →
        (UpdateConfig (startServer (NewServer 8)) 4).available =
          (startServer (NewServer 8)).available + (4 - (startServer (NewServer 8)).threads)) ∧
      (4 < (startServer (NewServer 8)).threads →
        (UpdateConfig (startServer (NewServer 8)) 4).available =
          (startServer (NewServer 8)).available - ((startServer (NewServer 8)).threads - 4)) ∧
      ((UpdateConfig (startServer (NewServer 8)) 4).available : Int) =
        ((startServer (NewServer 8)).available : Int) + (4 : Int) -
          ((startServer (NewServer 8)).threads : Int)) :=
  ⟨by decide, updateConfig_resizes (startServer (NewServer 8)) 4 (by decide)⟩

/-- Claim C5 counterexample: at `rps = 0` the code panics on the division
`time.Second / 0` — it does not disable the stage as the spec says. -/
theorem stage_rps_zero_panics :
    performStageStartup 0 = .panicsDivByZero ∧
    performStageStartup 0 ≠ specStageStartup 0 := by decide

/-- Claim C5 (amended): a stage whose rps is 0 does not run and emits no
requests, but not by a graceful skip: computing the ticker interval panics
with an integer divide-by-zero, crashing the client goroutine.  For every
positive rps a ticker with interval `1s / rps` is created. -/
theorem stage_startup_characterization (rps : Nat) :
    (performStageStartup rps = .panicsDivByZero ↔ rps = 0) ∧
    (0 < rps →
      performStageStartup rps = .ticks (Int.tdiv 1000000000 (Int.ofNat rps))) := by
  constructor
  · by_cases h : rps = 0
    · subst h; decide
    · simp [performStageStartup, goDurationQuot, Int.natCast_eq_zero, h]
  · intro hpos
    have h : rps ≠ 0 := by omega
    simp [performStageStartup, goDurationQuot, Int.natCast_eq_zero, h]

/-- Witness for the amended C5 at `rps = 100`. -/
theorem stage_startup_characterization_witness :
    (performStageStartup 100 = .panicsDivByZero ↔ 100 = 0) ∧
    (0 < 100 →
      performStageStartup 100 = .ticks (Int.tdiv 1000000000 (Int.ofNat 100))) :=
  stage_startup_characterization 100

/-- Claim C7: a control-plane POST whose body fails to parse as YAML is
answered 400 and performs no state mutation: every client keeps its
workload set and every server keeps its config. -/
theorem controlPlane_parse_error_no_mutation
    (clients : List (List Workload)) (servers : List ServerState) :
    (updateClients clients .parseError).1 = clients ∧
    (updateClients clients .parseError).2 = 400 ∧
    (updateServers servers .parseError).1 = servers ∧
    (updateServers servers .parseError).2 = 400 :=
  ⟨rfl, rfl, rfl, rfl⟩

theorem carryStages_head (prev : Option StageC) (l : List StageC) :
    (carryStages prev l)[0]? = l[0]?.map (normStage prev) := by
  cases l <;> simp [carryStages]

/-- Adjacent-output recurrence of the stage loop: output `i+1` is the
normalization of input `i+1` against output `i`. -/
theorem carryStages_adj (l : List StageC) :
    ∀ (prev : Option StageC) (i : Nat) (si oi oi1 : StageC),
      l[i + 1]? = some si → (carryStages prev l)[i]? = some oi →
      (carryStages prev l)[i + 1]? = some oi1 →
      oi1 = normStage (some oi) si := by
  induction l with
  | nil => intro prev i si oi oi1 h1 _ _; simp at h1
  | cons st rest ih =>
      intro prev i si oi oi1 h1 h2 h3
      cases i with
      | zero =>
          simp only [carryStages, List.getElem?_cons_succ, List.getElem?_cons_zero,
            Option.some.injEq] at h1 h2 h3
          rw [carryStages_head, h1] at h3
          simp only [Option.map_some', Option.some.injEq] at h3
          rw [← h3, ← h2]
      | succ j =>
          simp only [carryStages, List.getElem?_cons_succ] at h1 h2 h3
          exact ih (some (normStage prev st)) j si oi oi1 h1 h2 h3

/-- Claim C8: after `parseConfig`'s stage normalization, any stage after the
first whose `rps` is unset receives the previous (normalized) stage's rps,
any stage whose `service_times` is unset receives the previous stage's
service times, stages that set these fields keep their own values, and the
first stage keeps its own `rps` and `service_times`. -/
theorem stage_carry_over (stages : List StageC) (i : Nat)
    (si oi oi1 s0 o0 : StageC)
    (h1 : stages[i + 1]? = some si)
    (h2 : (carryStages none stages)[i]? = some oi)
    (h3 : (carryStages none stages)[i + 1]? = some oi1)
    (h4 : stages[0]? = some s0)
    (h5 : (carryStages none stages)[0]? = some o0) :
    ((si.rps = 0 → oi1.rps = oi.rps) ∧
     (si.rps ≠ 0 → oi1.rps = si.rps) ∧
     (si.serviceTimes = none → oi1.serviceTimes = oi.serviceTimes) ∧
     (si.serviceTimes ≠ none → oi1.serviceTimes = si.serviceTimes)) ∧
    (o0.rps = s0.rps ∧ o0.serviceTimes = s0.serviceTimes) := by
  have hadj := carryStages_adj stages none i si oi oi1 h1 h2 h3
  subst hadj
  constructor
  · refine ⟨?_, ?_, ?_, ?_⟩ <;> intro h <;> simp [normStage, h]
  · rw [carryStages_head, h4] at h5
    simp only [Option.map_some', Option.some.injEq] at h5
    rw [← h5]
    exact ⟨by simp [normStage], by simp [normStage]⟩

/-- Witness for C8 on the two-stage list
`[{duration 10s, rps 100, service_times [{50ms·1}]}, {duration 20s}]`:
the second stage inherits rps 100 and the first stage's service times. -/
theorem stage_carry_over_witness :
    (([⟨10, 100, some [⟨50, 1⟩], 0⟩, ⟨20, 0, none, 0⟩] : List StageC)[0 + 1]? =
        some ⟨20, 0, none, 0⟩ ∧
      (carryStages none [⟨10, 100, some [⟨50, 1⟩], 0⟩, ⟨20, 0, none, 0⟩])[0]? =
        some ⟨10, 100, some [⟨50, 1⟩], 1⟩ ∧
      (carryStages none [⟨10, 100, some [⟨50, 1⟩], 0⟩, ⟨20, 0, none, 0⟩])[0 + 1]? =
        some ⟨20, 100, some [⟨50, 1⟩], 1⟩ ∧
      ([⟨10, 100, some [⟨50, 1⟩], 0⟩, ⟨20, 0, none, 0⟩] : List StageC)[0]? =
        some ⟨10, 100, some [⟨50, 1⟩], 0⟩ ∧
      (carryStages none [⟨10, 100, some [⟨50, 1⟩], 0⟩, ⟨20, 0, none, 0⟩])[0]? =
        some ⟨10, 100, some [⟨50, 1⟩], 1⟩) ∧
    ((((⟨20, 0, none, 0⟩ : StageC).rps = 0 →
        (⟨20, 100, some [⟨50, 1⟩], 1⟩ : StageC).rps =
          (⟨10, 100, some [⟨50, 1⟩], 1⟩ : StageC).rps) ∧
      ((⟨20, 0, none, 0⟩ : StageC).rps ≠ 0 →
        (⟨20, 100, some [⟨50, 1⟩], 1⟩ : StageC).rps =
          (⟨20, 0, none, 0⟩ : StageC).rps) ∧
      ((⟨20, 0, none, 0⟩ : StageC).serviceTimes = none →
        (⟨20, 100, some [⟨50, 1⟩], 1⟩ : StageC).serviceTimes =
          (⟨10, 100, some [⟨50, 1⟩], 1⟩ : StageC).serviceTimes) ∧
      ((⟨20, 0, none, 0⟩ : StageC).serviceTimes ≠ none →
        (⟨20, 100, some [⟨50, 1⟩], 1⟩ : StageC).serviceTimes =
          (⟨20, 0, none, 0⟩ : StageC).serviceTimes)) ∧
     ((⟨10, 100, some [⟨50, 1⟩], 1⟩ : StageC).rps =
        (⟨10, 100, some [⟨50, 1⟩], 0⟩ : StageC).rps ∧
      (⟨10, 100, some [⟨50, 1⟩], 1⟩ : StageC).serviceTimes =
        (⟨10, 100, some [⟨50, 1⟩], 0⟩ : StageC).serviceTimes)) :=
  ⟨⟨by decide, by decide, by decide, by decide, by decide⟩,
    stage_carry_over [⟨10, 100, some [⟨50, 1⟩], 0⟩, ⟨20, 0, none, 0⟩] 0
      ⟨20, 0, none, 0⟩ ⟨10, 100, some [⟨50, 1⟩], 1⟩ ⟨20, 100, some [⟨50, 1⟩], 1⟩
      ⟨10, 100, some [⟨50, 1⟩], 0⟩ ⟨10, 100, some [⟨50, 1⟩], 1⟩
      (by decide) (by decide) (by decide) (by decide) (by decide)⟩

end Tripwire
